import Mathlib

/-!
Shallow embedding of the progress-statistics aggregation of
`routes/progress.js` (study-companion backend): the `/stats` route body
(`computeStats`), the `/subject/:subject` route body (`subjectProgress`)
and the helper `getWeeklyActivity`, together with theorems about them.

Modelling conventions:
* Timestamps are integer epoch milliseconds (`Int`).  The JavaScript `Date`
  local-calendar operations are modelled over a fixed-offset civil calendar:
  `tz` is the offset (in ms) added to an epoch instant to obtain local time.
* JavaScript numbers arising from division are modelled by `JSNum`
  (a rational, `NaN`, or a signed infinity), so that `x / 0`, `0 / 0` and the
  `|| 0` masking idiom are represented faithfully.
* `Array.prototype.sort` with a comparator is a stable sort (ES2019); it is
  modelled by `List.insertionSort`, which is stable in exactly that sense,
  and the post-call (mutated) state of the `sessions` array is returned in
  the `sessionsAfter` field.
* `[...new Set(xs)]` keeps the first occurrence of each element; `setDedup`
  below does the same.
* `reduce((sum, s) => sum + f(s), 0)` is modelled by `List.foldl`.
-/

/-- One day in milliseconds (`24 * 60 * 60 * 1000`). -/
def DAY : Int := 86400000

/-- A study-session record as the aggregation reads it: `subject`, `topic`,
optional `duration` (minutes) and `rating`, and the `createdAt` timestamp. -/
structure StudySession where
  subject : String
  topic : String
  duration : Option Nat
  rating : Option Nat
  createdAt : Int
deriving DecidableEq

/-- A chat-message record as the aggregation reads it. -/
structure ChatMessage where
  role : String
  subject : Option String
  createdAt : Int
deriving DecidableEq

/-- A JavaScript number as produced by division: a rational, `NaN`, or a
signed infinity. -/
inductive JSNum where
  | num (q : ℚ)
  | nan
  | inf
  | ninf
deriving DecidableEq

/-- JavaScript division `a / b` (for finite operands): `0 / 0` is `NaN`,
`a / 0` with `a ≠ 0` is a signed infinity, otherwise the rational quotient. -/
def jsDiv (a b : ℚ) : JSNum :=
  if b = 0 then (if a = 0 then .nan else if 0 < a then .inf else .ninf)
  else .num (a / b)

/-- The JavaScript idiom `x || 0`: `NaN` (and `0` itself) become `0`;
every other value, infinities included, is kept. -/
def JSNum.orZero : JSNum → JSNum
  | .nan => .num 0
  | v => v

/-- JavaScript `Math.round`: halves round toward positive infinity;
`NaN` and infinities are fixed points. -/
def jsRound : JSNum → JSNum
  | .num q => .num (⌊q + 1/2⌋ : ℤ)
  | v => v

/-- JavaScript `Math.round(x * 10) / 10` (round to one decimal). -/
def jsRound1 : JSNum → JSNum
  | .num q => .num ((⌊q * 10 + 1/2⌋ : ℚ) / 10)
  | v => v

/-- `[...new Set(l)]`: deduplicate keeping the first occurrence of each
element, in encounter order. -/
def setDedup : List String → List String
  | [] => []
  | x :: xs => x :: (setDedup xs).filter (fun y => decide (y ≠ x))

/-- `sessions.reduce((sum, session) => sum + (session.duration || 0), 0)`. -/
def durationSum (l : List StudySession) : Nat :=
  l.foldl (fun sum s => sum + s.duration.getD 0) 0

/-- `sessions.reduce((sum, s) => sum + (s.rating || 0), 0)`, as a rational
(the value feeds a JavaScript division). -/
def ratingSum (l : List StudySession) : ℚ :=
  l.foldl (fun sum s => sum + ((s.rating.getD 0 : Nat) : ℚ)) 0

/-- The comparator `(a, b) => new Date(b.createdAt) - new Date(a.createdAt)`:
`a` may be placed before `b` exactly when `b.createdAt ≤ a.createdAt`. -/
def byCreatedAtDesc (a b : StudySession) : Prop :=
  b.createdAt ≤ a.createdAt

instance : DecidableRel byCreatedAtDesc :=
  fun a b => (inferInstance : Decidable (b.createdAt ≤ a.createdAt))

instance : IsTotal StudySession byCreatedAtDesc :=
  ⟨fun a b => le_total b.createdAt a.createdAt⟩

instance : IsTrans StudySession byCreatedAtDesc :=
  ⟨fun _ _ _ h h' => le_trans h' h⟩

/-- `sessions.filter(s => s.subject === subject)`. -/
def subjectSessionsOf (sessions : List StudySession) (subject : String) :
    List StudySession :=
  sessions.filter fun s => decide (s.subject = subject)

/-- `new Date(d.getFullYear(), d.getMonth(), d.getDate())`: the local
midnight (as an epoch instant) of the local calendar day containing `t`,
in the fixed-offset calendar with offset `tz`. -/
def dayFloor (tz t : Int) : Int :=
  ((t + tz) / DAY) * DAY - tz

/-- One element of the `weeklyActivity` array: the day's start instant
(the code renders it as an ISO date string), the session count, and the
total study time of that day. -/
structure DayActivity where
  date : Int
  sessions : Nat
  time : Nat
deriving DecidableEq

/-- `getWeeklyActivity(sessions)` of `routes/progress.js` (lines 203-227):
for `i = 6` down to `0`, bucket the sessions whose `createdAt` falls in the
local calendar day containing `now - i` days. -/
def getWeeklyActivity (tz : Int) (sessions : List StudySession) (now : Int) :
    List DayActivity :=
  (List.range 7).map fun (j : Nat) =>
    let i : Int := 6 - (j : Int)
    let date := now - i * DAY
    let dayStart := dayFloor tz date
    let dayEnd := dayStart + DAY
    let daySessions := sessions.filter fun s =>
      decide (dayStart ≤ s.createdAt) && decide (s.createdAt < dayEnd)
    { date := dayStart
      sessions := daySessions.length
      time := durationSum daySessions }

/-- One element of the `subjectStats` array of the `/stats` response. -/
structure SubjectStat where
  subject : String
  sessions : Nat
  totalTime : Nat
  questions : Nat
  averageRating : JSNum
deriving DecidableEq

/-- The `/stats` response body (lines 149-159 of `routes/progress.js`),
extended with the post-call state of the two input arrays: the in-place
`sessions.sort(...)` leaves `sessions` stably sorted descending by
`createdAt` (`sessionsAfter`), while `chatMessages` is never written
(`chatMessagesAfter`). -/
structure StatsSummary where
  totalStudyTime : Nat
  totalSessions : Nat
  totalQuestions : Nat
  subjectsStudied : Nat
  averageSessionLength : JSNum
  subjectStats : List SubjectStat
  recentSessions : List StudySession
  weeklyActivity : List DayActivity
  sessionsAfter : List StudySession
  chatMessagesAfter : List ChatMessage
deriving DecidableEq

/-- One entry of the `subjectStats` array (lines 130-142 of
`routes/progress.js`): the per-subject session count, total time, question
count, and the `reduce(...) / length || 0` average rating. -/
def subjectStatOf (sessions : List StudySession) (chatMessages : List ChatMessage)
    (subject : String) : SubjectStat :=
  let subjectSessions := subjectSessionsOf sessions subject
  { subject := subject
    sessions := subjectSessions.length
    totalTime := durationSum subjectSessions
    questions := (chatMessages.filter fun m => decide (m.subject = some subject)).length
    averageRating :=
      (jsDiv (ratingSum subjectSessions) (subjectSessions.length : ℚ)).orZero }

/-- The statistics computation of the `/stats` route (lines 124-159 of
`routes/progress.js`), as a function of the fetched `sessions` and
`chatMessages` collections, the current instant `now` and the calendar
offset `tz`. -/
def computeStats (tz now : Int) (sessions : List StudySession)
    (chatMessages : List ChatMessage) : StatsSummary :=
  let totalStudyTime := durationSum sessions
  let totalQuestions := (chatMessages.filter fun m => decide (m.role = "user")).length
  let subjectsStudied := setDedup (sessions.map (·.subject))
  let averageSessionLength :=
    if 0 < sessions.length then jsDiv (totalStudyTime : ℚ) (sessions.length : ℚ)
    else JSNum.num 0
  let subjectStats := subjectsStudied.map (subjectStatOf sessions chatMessages)
  let sortedSessions := sessions.insertionSort byCreatedAtDesc
  { totalStudyTime := totalStudyTime
    totalSessions := sessions.length
    totalQuestions := totalQuestions
    subjectsStudied := subjectsStudied.length
    averageSessionLength := jsRound averageSessionLength
    subjectStats := subjectStats
    recentSessions := sortedSessions.take 5
    weeklyActivity := getWeeklyActivity tz sessions now
    sessionsAfter := sortedSessions
    chatMessagesAfter := chatMessages }

/-- The response body of the `/subject/:subject` route (lines 181-193 of
`routes/progress.js`), as a function of the fetched session list. -/
structure SubjectProgress where
  totalSessions : Nat
  totalTime : Nat
  topicsCovered : Nat
  averageRating : JSNum
deriving DecidableEq

/-- The per-subject progress computation of the `/subject/:subject` route:
`averageRating` is `reduce(...) / sessions.length || 0` rounded to one
decimal. -/
def subjectProgress (sessions : List StudySession) : SubjectProgress :=
  let topics := setDedup (sessions.map (·.topic))
  let totalTime := durationSum sessions
  let averageRating := (jsDiv (ratingSum sessions) (sessions.length : ℚ)).orZero
  { totalSessions := sessions.length
    totalTime := totalTime
    topicsCovered := topics.length
    averageRating := jsRound1 averageRating }

/-- The `averageRating` as the specification words it: the arithmetic mean
of the non-null ratings among the given sessions, `0` if none is rated.
Stated from the spec for comparison with the code's computation. -/
def specAverageRating (l : List StudySession) : ℚ :=
  if (l.filterMap (·.rating)).length = 0 then 0
  else ((l.filterMap (·.rating)).map (fun r => (r : ℚ))).sum /
    ((l.filterMap (·.rating)).length : ℚ)

/-! ## Basic lemmas about the helpers -/

lemma foldl_add_eq_sum {α M : Type*} [AddCommMonoid M] (f : α → M) :
    ∀ (l : List α) (n : M), l.foldl (fun acc x => acc + f x) n = n + (l.map f).sum
  | [], n => by simp
  | x :: xs, n => by
    simp [foldl_add_eq_sum f xs (n + f x), add_assoc]

lemma durationSum_eq_sum (l : List StudySession) :
    durationSum l = (l.map fun s => s.duration.getD 0).sum := by
  simpa using foldl_add_eq_sum (fun s : StudySession => s.duration.getD 0) l 0

lemma ratingSum_eq_sum (l : List StudySession) :
    ratingSum l = (l.map fun s => ((s.rating.getD 0 : Nat) : ℚ)).sum := by
  simpa using foldl_add_eq_sum (fun s : StudySession => ((s.rating.getD 0 : Nat) : ℚ)) l 0

lemma mem_setDedup {x : String} : ∀ {l : List String}, x ∈ setDedup l ↔ x ∈ l
  | [] => Iff.rfl
  | y :: ys => by
    by_cases hxy : x = y
    · subst hxy
      simp [setDedup]
    · simp [setDedup, hxy, List.mem_filter, mem_setDedup (l := ys)]

lemma nodup_setDedup : ∀ (l : List String), (setDedup l).Nodup
  | [] => List.nodup_nil
  | y :: ys => by
    refine List.nodup_cons.2 ⟨?_, ?_⟩
    · intro hy
      rcases List.mem_filter.1 hy with ⟨-, hne⟩
      simp at hne
    · exact (nodup_setDedup ys).filter _

/-! ## Claim C6: totalStudyTime is the sum of durations, absent as 0 -/

/-- C6: for every list of sessions, `totalStudyTime` returned by
`computeStats` equals the sum over all sessions of the duration, where a
session with an absent duration contributes `0`. -/
theorem claim_C6 (tz now : Int) (sessions : List StudySession)
    (chatMessages : List ChatMessage) :
    (computeStats tz now sessions chatMessages).totalStudyTime =
      (sessions.map fun s => s.duration.getD 0).sum :=
  durationSum_eq_sum sessions

/-! ## Claim C8: empty inputs give all-zero counters and empty arrays -/

/-- C8: when both input collections are empty, `computeStats` returns
all-zero counters, `averageSessionLength = 0`, and empty `subjectStats`
and `recentSessions` arrays. -/
theorem claim_C8 (tz now : Int) :
    (computeStats tz now [] []).totalStudyTime = 0 ∧
    (computeStats tz now [] []).totalSessions = 0 ∧
    (computeStats tz now [] []).totalQuestions = 0 ∧
    (computeStats tz now [] []).subjectsStudied = 0 ∧
    (computeStats tz now [] []).averageSessionLength = JSNum.num 0 ∧
    (computeStats tz now [] []).subjectStats = [] ∧
    (computeStats tz now [] []).recentSessions = [] := by
  refine ⟨rfl, rfl, rfl, rfl, ?_, rfl, rfl⟩
  show jsRound (JSNum.num 0) = JSNum.num 0
  simp [jsRound]
  norm_num

/-! ## Claim C1: mutation of the input collections -/

/-- C1 counterexample: on a two-element session list in ascending
`createdAt` order, the in-place `sessions.sort(...)` leaves the `sessions`
array reordered, so it is not equal to its value before the call. -/
theorem claim_C1_counterexample :
    (computeStats 0 0 [⟨"DSA", "t", none, none, 0⟩, ⟨"OS", "t", none, none, 1⟩]
        []).sessionsAfter ≠
      [⟨"DSA", "t", none, none, 0⟩, ⟨"OS", "t", none, none, 1⟩] := by
  decide

/-- C1 (amended): `computeStats` never mutates the `chatMessages` list, and
mutates the `sessions` list only by reordering it in place (the stable
descending sort by `createdAt`): the post-call list is a permutation of the
input, and equals it whenever the input was already so sorted. -/
theorem claim_C1 (tz now : Int) (sessions : List StudySession)
    (chatMessages : List ChatMessage) :
    (computeStats tz now sessions chatMessages).chatMessagesAfter = chatMessages ∧
    ((computeStats tz now sessions chatMessages).sessionsAfter).Perm sessions ∧
    (List.Sorted byCreatedAtDesc sessions →
      (computeStats tz now sessions chatMessages).sessionsAfter = sessions) := by
  refine ⟨rfl, List.perm_insertionSort byCreatedAtDesc sessions, fun h => ?_⟩
  exact List.Sorted.insertionSort_eq h

/-- C1 witness: on a concrete already-descending session list the sort
hypothesis is discharged and the list is returned unchanged. -/
theorem claim_C1_witness :
    (computeStats 0 0 [⟨"OS", "t", none, none, 5⟩, ⟨"DSA", "t", none, none, 2⟩]
        []).chatMessagesAfter = [] ∧
    (computeStats 0 0 [⟨"OS", "t", none, none, 5⟩, ⟨"DSA", "t", none, none, 2⟩]
        []).sessionsAfter =
      [⟨"OS", "t", none, none, 5⟩, ⟨"DSA", "t", none, none, 2⟩] :=
  ⟨(claim_C1 0 0 [⟨"OS", "t", none, none, 5⟩, ⟨"DSA", "t", none, none, 2⟩] []).1,
   (claim_C1 0 0 [⟨"OS", "t", none, none, 5⟩, ⟨"DSA", "t", none, none, 2⟩] []).2.2
     (by simp [List.sorted_cons, byCreatedAtDesc])⟩

/-! ## Claim C3: averageSessionLength is the rounded quotient, not the
rational quotient -/

/-- C3 counterexample: with two sessions of durations 1 and 0 the rational
quotient is `1/2`, but the route returns `Math.round(1/2) = 1`. -/
theorem claim_C3_counterexample :
    (computeStats 0 0 [⟨"DSA", "t", some 1, none, 0⟩, ⟨"OS", "t", some 0, none, 0⟩]
        []).totalStudyTime = 1 ∧
    (computeStats 0 0 [⟨"DSA", "t", some 1, none, 0⟩, ⟨"OS", "t", some 0, none, 0⟩]
        []).totalSessions = 2 ∧
    (computeStats 0 0 [⟨"DSA", "t", some 1, none, 0⟩, ⟨"OS", "t", some 0, none, 0⟩]
        []).averageSessionLength = JSNum.num 1 ∧
    JSNum.num 1 ≠ JSNum.num ((1 : ℚ) / 2) := by
  refine ⟨rfl, rfl, ?_, ?_⟩
  · show jsRound (if 0 < 2 then jsDiv ((durationSum _ : Nat) : ℚ) ((2 : Nat) : ℚ)
        else JSNum.num 0) = JSNum.num 1
    norm_num [jsDiv, jsRound, durationSum]
  · intro h
    rw [JSNum.num.injEq] at h
    norm_num at h

/-- C3 (amended): `averageSessionLength` equals `Math.round` of the rational
quotient `totalStudyTime / totalSessions` (halves rounding up) when
`totalSessions > 0`, and `0` when `totalSessions = 0`. -/
theorem claim_C3 (tz now : Int) (sessions : List StudySession)
    (chatMessages : List ChatMessage) :
    ((computeStats tz now sessions chatMessages).totalSessions = 0 →
      (computeStats tz now sessions chatMessages).averageSessionLength = JSNum.num 0) ∧
    (0 < (computeStats tz now sessions chatMessages).totalSessions →
      (computeStats tz now sessions chatMessages).averageSessionLength =
        JSNum.num ⌊((computeStats tz now sessions chatMessages).totalStudyTime : ℚ) /
          ((computeStats tz now sessions chatMessages).totalSessions : ℚ) + 1/2⌋) := by
  constructor
  · intro h
    replace h : sessions.length = 0 := h
    show jsRound (if 0 < sessions.length then _ else JSNum.num 0) = JSNum.num 0
    rw [h]
    simp [jsRound]
    norm_num
  · intro h
    replace h : 0 < sessions.length := h
    show jsRound (if 0 < sessions.length then
        jsDiv ((durationSum sessions : Nat) : ℚ) ((sessions.length : Nat) : ℚ)
      else JSNum.num 0) = _
    have hne : ((sessions.length : Nat) : ℚ) ≠ 0 := by
      exact_mod_cast Nat.pos_iff_ne_zero.1 h
    simp [h, jsDiv, hne, jsRound]
    exact rfl

/-- C3 witness: both branches of the amended claim at concrete inputs:
the empty list, and a two-session list with total duration 1. -/
theorem claim_C3_witness :
    (computeStats 0 0 [] []).averageSessionLength = JSNum.num 0 ∧
    (computeStats 0 0 [⟨"DSA", "t", some 1, none, 0⟩, ⟨"OS", "t", some 0, none, 0⟩]
        []).averageSessionLength =
      JSNum.num ⌊((computeStats 0 0
          [⟨"DSA", "t", some 1, none, 0⟩, ⟨"OS", "t", some 0, none, 0⟩]
          []).totalStudyTime : ℚ) /
        ((computeStats 0 0
          [⟨"DSA", "t", some 1, none, 0⟩, ⟨"OS", "t", some 0, none, 0⟩]
          []).totalSessions : ℚ) + 1/2⌋ :=
  ⟨(claim_C3 0 0 [] []).1 rfl,
   (claim_C3 0 0 [⟨"DSA", "t", some 1, none, 0⟩, ⟨"OS", "t", some 0, none, 0⟩] []).2
     (by decide)⟩

/-! ## Claim C5: recentSessions are the five most recent, descending -/

/-- C5: `recentSessions` has length `min 5 n`, is sorted descending by
`createdAt`, together with the dropped remainder it is a permutation of the
input sessions, and every returned session's `createdAt` is at least that of
every dropped session: it consists of exactly the `min 5 n` most recent
sessions, descending. -/
theorem claim_C5 (tz now : Int) (sessions : List StudySession)
    (chatMessages : List ChatMessage) :
    (computeStats tz now sessions chatMessages).recentSessions.length =
      min 5 sessions.length ∧
    List.Sorted byCreatedAtDesc
      (computeStats tz now sessions chatMessages).recentSessions ∧
    ((computeStats tz now sessions chatMessages).recentSessions ++
      ((computeStats tz now sessions chatMessages).sessionsAfter).drop 5).Perm
      sessions ∧
    ∀ x ∈ (computeStats tz now sessions chatMessages).recentSessions,
      ∀ y ∈ ((computeStats tz now sessions chatMessages).sessionsAfter).drop 5,
        y.createdAt ≤ x.createdAt := by
  have hsorted : List.Sorted byCreatedAtDesc
      (sessions.insertionSort byCreatedAtDesc) :=
    List.sorted_insertionSort byCreatedAtDesc sessions
  have hperm := List.perm_insertionSort byCreatedAtDesc sessions
  have hrec : (computeStats tz now sessions chatMessages).recentSessions =
      (sessions.insertionSort byCreatedAtDesc).take 5 := rfl
  have hafter : (computeStats tz now sessions chatMessages).sessionsAfter =
      sessions.insertionSort byCreatedAtDesc := rfl
  have hsplit : (sessions.insertionSort byCreatedAtDesc).take 5 ++
      (sessions.insertionSort byCreatedAtDesc).drop 5 =
      sessions.insertionSort byCreatedAtDesc := List.take_append_drop _ _
  refine ⟨?_, ?_, ?_, ?_⟩
  · rw [hrec, List.length_take, hperm.length_eq]
  · rw [hrec]
    exact List.Pairwise.sublist (List.take_sublist 5 _) hsorted
  · rw [hrec, hafter, hsplit]
    exact hperm
  · rw [hrec, hafter]
    have := List.pairwise_append.1 (by rw [hsplit]; exact hsorted)
    exact fun x hx y hy => this.2.2 x hx y hy

/-- C5 witness: with 7 concrete sessions, `recentSessions` has length
`min 5 7 = 5` and a kept session is at least as recent as a dropped one. -/
theorem claim_C5_witness :
    (computeStats 0 0
        [⟨"a", "t", none, none, 3⟩, ⟨"b", "t", none, none, 7⟩,
         ⟨"c", "t", none, none, 1⟩, ⟨"d", "t", none, none, 5⟩,
         ⟨"e", "t", none, none, 6⟩, ⟨"f", "t", none, none, 2⟩,
         ⟨"g", "t", none, none, 4⟩] []).recentSessions.length = min 5 7 ∧
    (⟨"c", "t", none, none, 1⟩ : StudySession).createdAt ≤
      (⟨"a", "t", none, none, 3⟩ : StudySession).createdAt :=
  ⟨(claim_C5 0 0
      [⟨"a", "t", none, none, 3⟩, ⟨"b", "t", none, none, 7⟩,
       ⟨"c", "t", none, none, 1⟩, ⟨"d", "t", none, none, 5⟩,
       ⟨"e", "t", none, none, 6⟩, ⟨"f", "t", none, none, 2⟩,
       ⟨"g", "t", none, none, 4⟩] []).1,
   (claim_C5 0 0
      [⟨"a", "t", none, none, 3⟩, ⟨"b", "t", none, none, 7⟩,
       ⟨"c", "t", none, none, 1⟩, ⟨"d", "t", none, none, 5⟩,
       ⟨"e", "t", none, none, 6⟩, ⟨"f", "t", none, none, 2⟩,
       ⟨"g", "t", none, none, 4⟩] []).2.2.2
     ⟨"a", "t", none, none, 3⟩ (by decide) ⟨"c", "t", none, none, 1⟩ (by decide)⟩


/-! ## Partition lemmas for the per-subject breakdown -/

lemma sum_map_ite_zero (v : Nat) (c : String) :
    ∀ {ks : List String}, c ∉ ks →
      (ks.map fun k => if c = k then v else 0).sum = 0
  | [], _ => rfl
  | k :: ks, h => by
    have hck : ¬ c = k := fun hc => h (hc ▸ List.mem_cons_self k ks)
    have hcks : c ∉ ks := fun hc => h (List.mem_cons_of_mem k hc)
    simp [hck, sum_map_ite_zero v c hcks]

lemma sum_map_ite_mem (v : Nat) (c : String) :
    ∀ {ks : List String}, ks.Nodup → c ∈ ks →
      (ks.map fun k => if c = k then v else 0).sum = v
  | [], _, h => absurd h (List.not_mem_nil c)
  | k :: ks, hnd, h => by
    rcases List.mem_cons.1 h with hck | hcks
    · subst hck
      have : c ∉ ks := (List.nodup_cons.1 hnd).1
      simp [sum_map_ite_zero v c this]
    · have hck : ¬ c = k := fun hc => (List.nodup_cons.1 hnd).1 (hc ▸ hcks)
      simp [hck, sum_map_ite_mem v c (List.nodup_cons.1 hnd).2 hcks]

lemma sum_map_filter_key (g : StudySession → Nat) (ks : List String)
    (hnd : ks.Nodup) :
    ∀ (l : List StudySession), (∀ s ∈ l, s.subject ∈ ks) →
      (ks.map fun k => ((subjectSessionsOf l k).map g).sum).sum = (l.map g).sum
  | [], _ => by simp [subjectSessionsOf]
  | s :: l, h => by
    have hs : s.subject ∈ ks := h s (List.mem_cons_self s l)
    have hl : ∀ x ∈ l, x.subject ∈ ks := fun x hx => h x (List.mem_cons_of_mem s hx)
    have hmap : ∀ k ∈ ks, ((subjectSessionsOf (s :: l) k).map g).sum =
        (if s.subject = k then g s else 0) + ((subjectSessionsOf l k).map g).sum := by
      intro k _
      by_cases hk : s.subject = k <;> simp [subjectSessionsOf, List.filter_cons, hk]
    rw [List.map_congr_left hmap, List.sum_map_add,
      sum_map_ite_mem (g s) s.subject hnd hs, sum_map_filter_key g ks hnd l hl]
    simp

lemma sum_map_one {α : Type*} (l : List α) :
    (l.map fun _ => (1 : Nat)).sum = l.length := by
  induction l with
  | nil => rfl
  | cons x xs ih => simp [ih, Nat.add_comm]

lemma coverage_setDedup (sessions : List StudySession) :
    ∀ s ∈ sessions, s.subject ∈ setDedup (sessions.map (·.subject)) := by
  intro s hs
  exact mem_setDedup.2 (List.mem_map_of_mem _ hs)

lemma subjectStats_eq (tz now : Int) (sessions : List StudySession)
    (chatMessages : List ChatMessage) :
    (computeStats tz now sessions chatMessages).subjectStats =
      (setDedup (sessions.map (·.subject))).map (subjectStatOf sessions chatMessages) :=
  rfl

/-! ## Claim C9: subjectStats partitions the sessions -/

/-- C9: `subjectStats` has exactly one entry per distinct subject (its
subjects are exactly the subjects occurring among the sessions, without
duplicates), every entry counts at least one session, the session counts sum
to `totalSessions`, and the per-subject times sum to `totalStudyTime`. -/
theorem claim_C9 (tz now : Int) (sessions : List StudySession)
    (chatMessages : List ChatMessage) :
    ((computeStats tz now sessions chatMessages).subjectStats.map (·.subject)).Nodup ∧
    (∀ subj : String,
      subj ∈ (computeStats tz now sessions chatMessages).subjectStats.map (·.subject) ↔
        subj ∈ sessions.map (·.subject)) ∧
    (∀ e ∈ (computeStats tz now sessions chatMessages).subjectStats, 1 ≤ e.sessions) ∧
    ((computeStats tz now sessions chatMessages).subjectStats.map (·.sessions)).sum =
      (computeStats tz now sessions chatMessages).totalSessions ∧
    ((computeStats tz now sessions chatMessages).subjectStats.map (·.totalTime)).sum =
      (computeStats tz now sessions chatMessages).totalStudyTime := by
  have hsubj : (computeStats tz now sessions chatMessages).subjectStats.map (·.subject) =
      setDedup (sessions.map (·.subject)) := by
    rw [subjectStats_eq, List.map_map]
    have : ∀ k ∈ setDedup (sessions.map (·.subject)),
        ((·.subject) ∘ subjectStatOf sessions chatMessages) k = id k := fun k _ => rfl
    rw [List.map_congr_left this, List.map_id]
  refine ⟨?_, ?_, ?_, ?_, ?_⟩
  · rw [hsubj]; exact nodup_setDedup _
  · intro subj; rw [hsubj]; exact mem_setDedup
  · intro e he
    rw [subjectStats_eq] at he
    rcases List.mem_map.1 he with ⟨k, hk, rfl⟩
    show 1 ≤ (subjectSessionsOf sessions k).length
    rcases List.mem_map.1 (mem_setDedup.1 hk) with ⟨s, hs, rfl⟩
    have : s ∈ subjectSessionsOf sessions s.subject := by
      simp [subjectSessionsOf, List.mem_filter, hs]
    exact List.length_pos_of_mem this
  · rw [subjectStats_eq, List.map_map]
    have h1 : ∀ k ∈ setDedup (sessions.map (·.subject)),
        ((·.sessions) ∘ subjectStatOf sessions chatMessages) k =
          ((subjectSessionsOf sessions k).map fun _ => (1 : Nat)).sum := by
      intro k _
      exact (sum_map_one _).symm
    rw [List.map_congr_left h1,
      sum_map_filter_key (fun _ => 1) _ (nodup_setDedup _) sessions
        (coverage_setDedup sessions), sum_map_one]
    rfl
  · rw [subjectStats_eq, List.map_map]
    have h1 : ∀ k ∈ setDedup (sessions.map (·.subject)),
        ((·.totalTime) ∘ subjectStatOf sessions chatMessages) k =
          ((subjectSessionsOf sessions k).map fun s => s.duration.getD 0).sum := by
      intro k _
      exact durationSum_eq_sum _
    rw [List.map_congr_left h1,
      sum_map_filter_key (fun s => s.duration.getD 0) _ (nodup_setDedup _) sessions
        (coverage_setDedup sessions)]
    exact (durationSum_eq_sum sessions).symm

/-- C9 witness: the membership-style parts of the claim discharged on a
concrete three-session, two-subject input. -/
theorem claim_C9_witness :
    (1 ≤ (subjectStatOf [⟨"DSA", "t", some 30, none, 0⟩, ⟨"OS", "t", some 45, none, 1⟩,
        ⟨"DSA", "u", some 60, none, 2⟩] [] "DSA").sessions) ∧
    ((computeStats 0 0 [⟨"DSA", "t", some 30, none, 0⟩, ⟨"OS", "t", some 45, none, 1⟩,
        ⟨"DSA", "u", some 60, none, 2⟩] []).subjectStats.map (·.sessions)).sum =
      (computeStats 0 0 [⟨"DSA", "t", some 30, none, 0⟩, ⟨"OS", "t", some 45, none, 1⟩,
        ⟨"DSA", "u", some 60, none, 2⟩] []).totalSessions :=
  ⟨(claim_C9 0 0 [⟨"DSA", "t", some 30, none, 0⟩, ⟨"OS", "t", some 45, none, 1⟩,
      ⟨"DSA", "u", some 60, none, 2⟩] []).2.2.1
      (subjectStatOf [⟨"DSA", "t", some 30, none, 0⟩, ⟨"OS", "t", some 45, none, 1⟩,
        ⟨"DSA", "u", some 60, none, 2⟩] [] "DSA")
      (List.mem_map_of_mem _ (by
        show "DSA" ∈ setDedup _
        simp [setDedup])),
   (claim_C9 0 0 [⟨"DSA", "t", some 30, none, 0⟩, ⟨"OS", "t", some 45, none, 1⟩,
      ⟨"DSA", "u", some 60, none, 2⟩] []).2.2.2.1⟩

/-! ## Claim C2: the per-subject averageRating -/

/-- C2 counterexample: a subject with one session rated 4 and one unrated
session. The mean of the non-null ratings is 4, but the route divides the
rating sum by the total session count and reports 2. -/
theorem claim_C2_counterexample :
    (computeStats 0 0 [⟨"DSA", "t", some 30, some 4, 0⟩, ⟨"DSA", "t", none, none, 1⟩]
        []).subjectStats.map (·.averageRating) = [JSNum.num 2] ∧
    specAverageRating (subjectSessionsOf
        [⟨"DSA", "t", some 30, some 4, 0⟩, ⟨"DSA", "t", none, none, 1⟩] "DSA") = 4 ∧
    JSNum.num 2 ≠ JSNum.num 4 := by
  refine ⟨?_, ?_, ?_⟩
  · rw [subjectStats_eq]
    have hded : setDedup
        (([⟨"DSA", "t", some 30, some 4, 0⟩, ⟨"DSA", "t", none, none, 1⟩] :
          List StudySession).map (·.subject)) = ["DSA"] := by decide
    rw [hded]
    simp only [List.map_cons, List.map_nil, List.cons.injEq, and_true]
    have hsub : subjectSessionsOf
        [⟨"DSA", "t", some 30, some 4, 0⟩, ⟨"DSA", "t", none, none, 1⟩] "DSA" =
        [⟨"DSA", "t", some 30, some 4, 0⟩, ⟨"DSA", "t", none, none, 1⟩] := by decide
    show (jsDiv (ratingSum (subjectSessionsOf
        [⟨"DSA", "t", some 30, some 4, 0⟩, ⟨"DSA", "t", none, none, 1⟩] "DSA"))
        ((subjectSessionsOf
          [⟨"DSA", "t", some 30, some 4, 0⟩, ⟨"DSA", "t", none, none, 1⟩]
          "DSA").length : ℚ)).orZero = JSNum.num 2
    rw [hsub]
    have hr : ratingSum [⟨"DSA", "t", some 30, some 4, 0⟩, ⟨"DSA", "t", none, none, 1⟩] =
        4 := by
      simp [ratingSum]
    rw [hr]
    norm_num [jsDiv, JSNum.orZero]
  · have hsub : subjectSessionsOf
        [⟨"DSA", "t", some 30, some 4, 0⟩, ⟨"DSA", "t", none, none, 1⟩] "DSA" =
        [⟨"DSA", "t", some 30, some 4, 0⟩, ⟨"DSA", "t", none, none, 1⟩] := by decide
    have hfm : (([⟨"DSA", "t", some 30, some 4, 0⟩, ⟨"DSA", "t", none, none, 1⟩] :
        List StudySession).filterMap (·.rating)) = [4] := by decide
    rw [hsub]
    simp only [specAverageRating, hfm]
    norm_num [List.filterMap_cons]
  · intro h
    rw [JSNum.num.injEq] at h
    norm_num at h

/-- C2 (amended): for every subject entry of `subjectStats`, `averageRating`
equals the sum of that subject's ratings (absent ratings treated as 0)
divided by that subject's total session count (which is positive); when none
of the subject's sessions is rated it is 0. -/
theorem claim_C2 (tz now : Int) (sessions : List StudySession)
    (chatMessages : List ChatMessage) :
    ∀ e ∈ (computeStats tz now sessions chatMessages).subjectStats,
      0 < (subjectSessionsOf sessions e.subject).length ∧
      e.averageRating = JSNum.num
        (((subjectSessionsOf sessions e.subject).map fun s =>
            ((s.rating.getD 0 : Nat) : ℚ)).sum /
          ((subjectSessionsOf sessions e.subject).length : ℚ)) ∧
      ((∀ s ∈ subjectSessionsOf sessions e.subject, s.rating = none) →
        e.averageRating = JSNum.num 0) := by
  intro e he
  rw [subjectStats_eq] at he
  rcases List.mem_map.1 he with ⟨k, hk, rfl⟩
  rcases List.mem_map.1 (mem_setDedup.1 hk) with ⟨s, hs, rfl⟩
  have hpos : 0 < (subjectSessionsOf sessions s.subject).length := by
    refine List.length_pos_of_mem (a := s) ?_
    simp [subjectSessionsOf, List.mem_filter, hs]
  have hne : ((subjectSessionsOf sessions s.subject).length : ℚ) ≠ 0 := by
    exact_mod_cast hpos.ne'
  refine ⟨hpos, ?_, ?_⟩
  · show (jsDiv (ratingSum (subjectSessionsOf sessions s.subject))
        ((subjectSessionsOf sessions s.subject).length : ℚ)).orZero = _
    rw [jsDiv, if_neg hne, ratingSum_eq_sum]
    rfl
  · intro hall
    have hzero : ratingSum (subjectSessionsOf sessions s.subject) = 0 := by
      rw [ratingSum_eq_sum]
      refine List.sum_eq_zero ?_
      intro x hx
      rcases List.mem_map.1 hx with ⟨t, ht, rfl⟩
      rw [hall t ht]
      rfl
    show (jsDiv (ratingSum (subjectSessionsOf sessions s.subject))
        ((subjectSessionsOf sessions s.subject).length : ℚ)).orZero = _
    rw [jsDiv, if_neg hne, hzero, zero_div]
    rfl

/-- C2 witness: the entry hypothesis discharged on a concrete one-session
input with rating 4: the reported average is `4 / 1`. -/
theorem claim_C2_witness :
    0 < (subjectSessionsOf [⟨"DSA", "t", some 30, some 4, 0⟩]
        (subjectStatOf [⟨"DSA", "t", some 30, some 4, 0⟩] [] "DSA").subject).length ∧
    (subjectStatOf [⟨"DSA", "t", some 30, some 4, 0⟩] [] "DSA").averageRating =
      JSNum.num
        (((subjectSessionsOf [⟨"DSA", "t", some 30, some 4, 0⟩]
            (subjectStatOf [⟨"DSA", "t", some 30, some 4, 0⟩] [] "DSA").subject).map
              fun s => ((s.rating.getD 0 : Nat) : ℚ)).sum /
          ((subjectSessionsOf [⟨"DSA", "t", some 30, some 4, 0⟩]
            (subjectStatOf [⟨"DSA", "t", some 30, some 4, 0⟩] [] "DSA").subject).length : ℚ)) :=
  ⟨(claim_C2 0 0 [⟨"DSA", "t", some 30, some 4, 0⟩] []
      (subjectStatOf [⟨"DSA", "t", some 30, some 4, 0⟩] [] "DSA")
      (by rw [subjectStats_eq]
          exact List.mem_map_of_mem _ (by show "DSA" ∈ setDedup _; decide))).1,
   (claim_C2 0 0 [⟨"DSA", "t", some 30, some 4, 0⟩] []
      (subjectStatOf [⟨"DSA", "t", some 30, some 4, 0⟩] [] "DSA")
      (by rw [subjectStats_eq]
          exact List.mem_map_of_mem _ (by show "DSA" ∈ setDedup _; decide))).2.1⟩

/-! ## Day-bucket lemmas for the weekly activity -/

lemma dayFloor_le (tz t : Int) : dayFloor tz t ≤ t := by
  unfold dayFloor DAY
  omega

lemma lt_dayFloor_add_day (tz t : Int) : t < dayFloor tz t + DAY := by
  unfold dayFloor DAY
  omega

lemma dayFloor_sub_mul_day (tz t i : Int) :
    dayFloor tz (t - i * DAY) = dayFloor tz t - i * DAY := by
  unfold dayFloor DAY
  omega

lemma decide_and_absorb {P Q R S : Prop} [Decidable P] [Decidable Q]
    [Decidable R] [Decidable S] (h1 : P → Q → R) (h2 : P → Q → S) :
    ((decide P && decide Q) && (decide R && decide S)) = (decide P && decide Q) := by
  by_cases hp : P <;> by_cases hq : Q <;> simp [hp, hq, h1, h2]

lemma weekly_dates (tz : Int) (sessions : List StudySession) (now : Int) :
    (getWeeklyActivity tz sessions now).map (·.date) =
      (List.range 7).map fun (j : Nat) => dayFloor tz now + ((j : Int) - 6) * DAY := by
  simp only [getWeeklyActivity, List.map_map]
  refine List.map_congr_left ?_
  intro j hj
  show dayFloor tz (now - (6 - (j : Int)) * DAY) = dayFloor tz now + ((j : Int) - 6) * DAY
  rw [dayFloor_sub_mul_day]
  ring

lemma weekly_filter_window (tz : Int) (sessions : List StudySession) (now : Int) :
    getWeeklyActivity tz
      (sessions.filter fun s => decide (dayFloor tz now - 6 * DAY ≤ s.createdAt) &&
        decide (s.createdAt < dayFloor tz now + DAY)) now =
      getWeeklyActivity tz sessions now := by
  simp only [getWeeklyActivity]
  refine List.map_congr_left ?_
  intro j hj
  have hj7 : j < 7 := List.mem_range.1 hj
  have hfl : ((sessions.filter fun s =>
        decide (dayFloor tz now - 6 * DAY ≤ s.createdAt) &&
        decide (s.createdAt < dayFloor tz now + DAY)).filter fun s =>
        decide (dayFloor tz (now - (6 - (j : Int)) * DAY) ≤ s.createdAt) &&
        decide (s.createdAt < dayFloor tz (now - (6 - (j : Int)) * DAY) + DAY)) =
      sessions.filter fun s =>
        decide (dayFloor tz (now - (6 - (j : Int)) * DAY) ≤ s.createdAt) &&
        decide (s.createdAt < dayFloor tz (now - (6 - (j : Int)) * DAY) + DAY) := by
    rw [List.filter_filter]
    refine List.filter_congr ?_
    intro s hs
    rw [dayFloor_sub_mul_day]
    refine decide_and_absorb ?_ ?_ <;>
      · intro hA hB
        simp only [DAY] at hA hB ⊢
        omega
  rw [hfl]

lemma range7_ite (base t : Int) :
    ((List.range 7).map fun (j : Nat) => if (decide (base + ((j : Int) - 6) * DAY ≤ t) &&
        decide (t < base + ((j : Int) - 6) * DAY + DAY)) = true then (1 : Nat) else 0).sum =
      if (decide (base - 6 * DAY ≤ t) && decide (t < base + DAY)) = true then 1 else 0 := by
  have h7 : List.range 7 = [0, 1, 2, 3, 4, 5, 6] := rfl
  rw [h7]
  simp only [List.map_cons, List.map_nil, List.sum_cons, List.sum_nil,
    Bool.and_eq_true, decide_eq_true_eq, DAY]
  norm_num
  split_ifs <;> omega

lemma countP_week (base : Int) :
    ∀ l : List StudySession,
      ((List.range 7).map fun (j : Nat) => l.countP fun s =>
          decide (base + ((j : Int) - 6) * DAY ≤ s.createdAt) &&
          decide (s.createdAt < base + ((j : Int) - 6) * DAY + DAY)).sum =
        l.countP fun s => decide (base - 6 * DAY ≤ s.createdAt) &&
          decide (s.createdAt < base + DAY)
  | [] => by simp
  | s :: l => by
    simp only [List.countP_cons]
    rw [List.sum_map_add, countP_week base l, range7_ite base s.createdAt]

lemma weekly_sessions_sum (tz : Int) (sessions : List StudySession) (now : Int) :
    ((getWeeklyActivity tz sessions now).map (·.sessions)).sum =
      sessions.countP fun s => decide (dayFloor tz now - 6 * DAY ≤ s.createdAt) &&
        decide (s.createdAt < dayFloor tz now + DAY) := by
  simp only [getWeeklyActivity, List.map_map]
  refine Eq.trans (congrArg List.sum (List.map_congr_left ?_))
    (countP_week (dayFloor tz now) sessions)
  intro j hj
  show ((sessions.filter fun s =>
      decide (dayFloor tz (now - (6 - (j : Int)) * DAY) ≤ s.createdAt) &&
      decide (s.createdAt < dayFloor tz (now - (6 - (j : Int)) * DAY) + DAY))).length =
    sessions.countP fun s =>
      decide (dayFloor tz now + ((j : Int) - 6) * DAY ≤ s.createdAt) &&
      decide (s.createdAt < dayFloor tz now + ((j : Int) - 6) * DAY + DAY)
  rw [dayFloor_sub_mul_day]
  have harith : dayFloor tz now - (6 - (j : Int)) * DAY =
      dayFloor tz now + ((j : Int) - 6) * DAY := by ring
  rw [harith, List.countP_eq_length_filter]

/-! ## Claim C4: seven contiguous day buckets ending today -/

/-- C4: `getWeeklyActivity` returns exactly 7 buckets; their dates are the
7 consecutive local day starts ending with the day containing `now`; and
filtering the input to the 7-day window first does not change any bucket, so
sessions outside the window are counted nowhere. -/
theorem claim_C4 (tz : Int) (sessions : List StudySession) (now : Int) :
    (getWeeklyActivity tz sessions now).length = 7 ∧
    (getWeeklyActivity tz sessions now).map (·.date) =
      (List.range 7).map (fun (j : Nat) => dayFloor tz now + ((j : Int) - 6) * DAY) ∧
    (dayFloor tz now ≤ now ∧ now < dayFloor tz now + DAY) ∧
    getWeeklyActivity tz
      (sessions.filter fun s => decide (dayFloor tz now - 6 * DAY ≤ s.createdAt) &&
        decide (s.createdAt < dayFloor tz now + DAY)) now =
      getWeeklyActivity tz sessions now := by
  refine ⟨?_, weekly_dates tz sessions now,
    ⟨dayFloor_le tz now, lt_dayFloor_add_day tz now⟩,
    weekly_filter_window tz sessions now⟩
  simp [getWeeklyActivity]

/-! ## Claim C10: buckets are disjoint; counts sum to the window count -/

/-- C10: the 7 day intervals are pairwise disjoint (each pair of dates is a
full day apart), the bucket session counts sum to exactly the number of
sessions inside the 7-day span, and in particular never exceed the number of
input sessions. -/
theorem claim_C10 (tz : Int) (sessions : List StudySession) (now : Int) :
    ((getWeeklyActivity tz sessions now).map (·.date)).Pairwise
      (fun d d' => d + DAY ≤ d' ∨ d' + DAY ≤ d) ∧
    ((getWeeklyActivity tz sessions now).map (·.sessions)).sum =
      sessions.countP (fun s => decide (dayFloor tz now - 6 * DAY ≤ s.createdAt) &&
        decide (s.createdAt < dayFloor tz now + DAY)) ∧
    ((getWeeklyActivity tz sessions now).map (·.sessions)).sum ≤ sessions.length := by
  refine ⟨?_, weekly_sessions_sum tz sessions now, ?_⟩
  · rw [weekly_dates tz sessions now, List.pairwise_map]
    refine (List.pairwise_lt_range 7).imp ?_
    intro a b hab
    refine Or.inl ?_
    simp only [DAY]
    omega
  · rw [weekly_sessions_sum tz sessions now, List.countP_eq_length_filter]
    exact List.length_filter_le _ _

/-! ## Claim C7: no division produces NaN or an error in any output -/

lemma jsDiv_of_ne (a : ℚ) {b : ℚ} (hb : b ≠ 0) : jsDiv a b = JSNum.num (a / b) := by
  rw [jsDiv, if_neg hb]

lemma averageSessionLength_num (tz now : Int) (sessions : List StudySession)
    (chatMessages : List ChatMessage) :
    ∃ q : ℚ, (computeStats tz now sessions chatMessages).averageSessionLength =
      JSNum.num q := by
  show ∃ q, jsRound (if 0 < sessions.length then
      jsDiv ((durationSum sessions : Nat) : ℚ) ((sessions.length : Nat) : ℚ)
    else JSNum.num 0) = JSNum.num q
  by_cases h : 0 < sessions.length
  · have hne : ((sessions.length : Nat) : ℚ) ≠ 0 := by
      exact_mod_cast h.ne'
    rw [if_pos h, jsDiv_of_ne _ hne]
    exact ⟨_, rfl⟩
  · rw [if_neg h]
    exact ⟨_, rfl⟩

lemma subjectProgress_averageRating_num (sessions : List StudySession) :
    ∃ q : ℚ, (subjectProgress sessions).averageRating = JSNum.num q := by
  show ∃ q, jsRound1 ((jsDiv (ratingSum sessions) ((sessions.length : Nat) : ℚ)).orZero) =
    JSNum.num q
  cases sessions with
  | nil =>
    refine ⟨0, ?_⟩
    show jsRound1 ((jsDiv (ratingSum []) ((0 : Nat) : ℚ)).orZero) = JSNum.num 0
    have h0 : ratingSum [] = 0 := rfl
    rw [h0]
    show jsRound1 ((jsDiv 0 0).orZero) = JSNum.num 0
    rw [jsDiv, if_pos rfl, if_pos rfl]
    show JSNum.num ((⌊(0 : ℚ) * 10 + 1/2⌋ : ℚ) / 10) = JSNum.num 0
    norm_num
  | cons s l =>
    have hne : (((s :: l).length : Nat) : ℚ) ≠ 0 :=
      Nat.cast_ne_zero.mpr (by simp)
    rw [jsDiv_of_ne _ hne]
    exact ⟨_, rfl⟩

/-- C7: every division in the aggregation resolves to a finite number in the
output: `averageSessionLength` and every `subjectStats.averageRating` (in
`computeStats`) and the `/subject` route's `averageRating` are plain
rationals, and in the zero-divisor cases (no sessions) they are exactly 0. -/
theorem claim_C7 (tz now : Int) (sessions : List StudySession)
    (chatMessages : List ChatMessage) :
    (∃ q : ℚ, (computeStats tz now sessions chatMessages).averageSessionLength =
      JSNum.num q) ∧
    (∀ e ∈ (computeStats tz now sessions chatMessages).subjectStats,
      ∃ q : ℚ, e.averageRating = JSNum.num q) ∧
    (∃ q : ℚ, (subjectProgress sessions).averageRating = JSNum.num q) ∧
    (sessions = [] →
      (computeStats tz now sessions chatMessages).averageSessionLength = JSNum.num 0 ∧
      (subjectProgress sessions).averageRating = JSNum.num 0) := by
  refine ⟨averageSessionLength_num tz now sessions chatMessages, ?_,
    subjectProgress_averageRating_num sessions, ?_⟩
  · intro e he
    rw [subjectStats_eq] at he
    rcases List.mem_map.1 he with ⟨k, hk, rfl⟩
    rcases List.mem_map.1 (mem_setDedup.1 hk) with ⟨s, hs, rfl⟩
    have hpos : 0 < (subjectSessionsOf sessions s.subject).length := by
      refine List.length_pos_of_mem (a := s) ?_
      simp [subjectSessionsOf, List.mem_filter, hs]
    have hne : ((subjectSessionsOf sessions s.subject).length : ℚ) ≠ 0 := by
      exact_mod_cast hpos.ne'
    show ∃ q, (jsDiv (ratingSum (subjectSessionsOf sessions s.subject))
        ((subjectSessionsOf sessions s.subject).length : ℚ)).orZero = JSNum.num q
    rw [jsDiv_of_ne _ hne]
    exact ⟨_, rfl⟩
  · intro h
    subst h
    constructor
    · show jsRound (JSNum.num 0) = JSNum.num 0
      show JSNum.num ((⌊(0 : ℚ) + 1/2⌋ : ℤ) : ℚ) = JSNum.num 0
      norm_num
    · show jsRound1 ((jsDiv (ratingSum []) ((0 : Nat) : ℚ)).orZero) = JSNum.num 0
      have h0 : ratingSum [] = 0 := rfl
      rw [h0]
      show jsRound1 ((jsDiv 0 0).orZero) = JSNum.num 0
      rw [jsDiv, if_pos rfl, if_pos rfl]
      show JSNum.num ((⌊(0 : ℚ) * 10 + 1/2⌋ : ℚ) / 10) = JSNum.num 0
      norm_num

/-- C7 witness: the subject-entry and empty-input hypotheses discharged on
concrete inputs: a rated single-session list, and the empty list. -/
theorem claim_C7_witness :
    (∃ q : ℚ, (subjectStatOf [⟨"DSA", "t", some 30, some 4, 0⟩] [] "DSA").averageRating =
      JSNum.num q) ∧
    (computeStats 0 0 [] []).averageSessionLength = JSNum.num 0 ∧
    (subjectProgress []).averageRating = JSNum.num 0 :=
  ⟨(claim_C7 0 0 [⟨"DSA", "t", some 30, some 4, 0⟩] []).2.1
      (subjectStatOf [⟨"DSA", "t", some 30, some 4, 0⟩] [] "DSA")
      (by rw [subjectStats_eq]
          exact List.mem_map_of_mem _ (by show "DSA" ∈ setDedup _; decide)),
   ((claim_C7 0 0 [] []).2.2.2 rfl).1, ((claim_C7 0 0 [] []).2.2.2 rfl).2⟩
